import Mathlib

/- Shallow embedding of the AnythingLLM workspace cleanup tools
   (cleanup_app.py and indexer/ui.py).  Strings manipulated by the Python
   code are modelled as `List Char`; `String` is kept where the code only
   compares or stores whole values. -/

/-- Whitespace characters removed by Python's str.strip(). -/
def pyWhitespaceChar (c : Char) : Bool :=
  c = ' ' || c = '\t' || c = '\n' || c = '\r' || c = '\x0b' || c = '\x0c'

/-- Leading-whitespace removal, the left half of Python str.strip(). -/
def stripLeft (s : List Char) : List Char := s.dropWhile pyWhitespaceChar

/-- Trailing-whitespace removal, the right half of Python str.strip(). -/
def stripRight (s : List Char) : List Char :=
  (s.reverse.dropWhile pyWhitespaceChar).reverse

/-- Python str.strip(): remove leading and trailing whitespace. -/
def pyStrip (s : List Char) : List Char := stripRight (stripLeft s)

/-- Python str.split(sep) for a one-character separator. -/
def pySplit (sep : Char) (s : List Char) : List (List Char) := s.splitOn sep

/-- Python `list[-1]` on a list of segments (split results are never empty,
so the default is unreachable). -/
def lastD {α : Type} (d : α) : List α → α
  | [] => d
  | a :: t =>
    match t with
    | [] => a
    | b :: t2 => lastD d (b :: t2)

/-- Per-line cleanup `[w.strip() for w in lines if w.strip()]` applied to an
already-split list of lines. -/
def cleanLines (ls : List (List Char)) : List (List Char) :=
  (ls.map pyStrip).filter (fun w => !w.isEmpty)

/-- Parse performed by the clean-button handler on each text area:
`[w.strip() for w in field.strip().split("\n") if w.strip()]`. -/
def parseField (s : List Char) : List (List Char) :=
  cleanLines (pySplit '\n' (pyStrip s))

/-- Spec-side description of the text-area parse, written from the spec's
words for the refinement comparison: split on newlines, trim each line,
discard empty lines, preserve order. -/
def specParseField (s : List Char) : List (List Char) :=
  cleanLines (pySplit '\n' s)

/-- Python `needle in hay` substring test. -/
def pyContains (needle : List Char) : List Char → Bool
  | [] => needle.isEmpty
  | c :: cs => needle.isPrefixOf (c :: cs) || pyContains needle cs

/-- Authentication state of one UI session: the sidebar mode together with
the credential fields belonging to that mode. -/
inductive AuthContext where
  | jwt (token : String)
  | apiKey (key : String)
  | basic (user pass : String)
  | noAuth
deriving DecidableEq

/-- Characters of the literal "Bearer " used by the header builders. -/
def bearerSpace : List Char := "Bearer ".toList

/-- Authorization value produced by the JWT branch of make_request: the
token is stripped, then used as is when it already starts with "Bearer ",
otherwise the "Bearer " marker is prepended; an empty token field produces
no Authorization header at all. -/
def jwtAuthValue (token : List Char) : Option (List Char) :=
  if token.isEmpty then none
  else if bearerSpace.isPrefixOf (pyStrip token) then some (pyStrip token)
  else some (bearerSpace ++ pyStrip token)

/-- Spec-side description of the JWT Authorization value, written from the
spec's words for the refinement comparison: use the stored token verbatim
when it starts with "Bearer ", otherwise prepend "Bearer "; no other
normalization. -/
def specJwtAuthValue (token : List Char) : Option (List Char) :=
  if bearerSpace.isPrefixOf token then some token
  else some (bearerSpace ++ token)

/-- Authorization value for the API-key branch of make_request: the raw key
when it already mentions "Bearer" anywhere, else "Bearer " prepended. -/
def apiKeyAuthValue (key : List Char) : List Char :=
  if pyContains "Bearer".toList key then key else bearerSpace ++ key

/-- Constant content-type header set by make_request. -/
def contentTypeHeader : String × String := ("Content-Type", "application/json")

/-- Header set built by make_request for the primary attempt. -/
def primaryHeaders (auth : AuthContext) : List (String × String) :=
  match auth with
  | .jwt t =>
    match jwtAuthValue t.toList with
    | some v => [contentTypeHeader, ("Authorization", v.asString)]
    | none => [contentTypeHeader]
  | .apiKey k =>
    if k = "" then [contentTypeHeader]
    else [contentTypeHeader, ("Authorization", (apiKeyAuthValue k.toList).asString)]
  | .basic _ _ => [contentTypeHeader]
  | .noAuth => [contentTypeHeader]

/-- First alternate API-key header shape: the raw key as Authorization. -/
def altHeader1 (key : String) : List (String × String) :=
  [contentTypeHeader, ("Authorization", key)]

/-- Second alternate API-key header shape: the key as x-api-key. -/
def altHeader2 (key : String) : List (String × String) :=
  [contentTypeHeader, ("x-api-key", key)]

/-- Third alternate API-key header shape: the key as X-API-KEY. -/
def altHeader3 (key : String) : List (String × String) :=
  [contentTypeHeader, ("X-API-KEY", key)]

/-- The alt_headers list of make_request, in source order. -/
def altHeaders (key : String) : List (List (String × String)) :=
  [altHeader1 key, altHeader2 key, altHeader3 key]

/-- HTTP method of one dispatch. -/
inductive Method where
  | get
  | post
deriving DecidableEq

/-- Observable part of one HTTP response. -/
structure HttpResponse where
  status : Nat
  body : String
deriving DecidableEq

/-- Fallback loop of make_request: try each alternate header shape in turn
and keep the first response whose status is not 401; when every alternate
also answers 401, the original response r0 is kept.  The second component
counts the physical requests the loop issued. -/
def tryAltHeaders (net : Method → List (String × String) → HttpResponse)
    (m : Method) : List (List (String × String)) → HttpResponse → HttpResponse × Nat
  | [], r0 => (r0, 0)
  | h :: hs, r0 =>
    let r := net m h
    if r.status ≠ 401 then (r, 1)
    else
      let p := tryAltHeaders net m hs r0
      (p.1, p.2 + 1)

/-- make_request: one primary physical request, plus the 401 fallback loop
when the auth mode is API key with a non-empty key.  Returns the response
the caller sees and the number of physical requests issued. -/
def makeRequest (net : Method → List (String × String) → HttpResponse)
    (m : Method) (auth : AuthContext) : HttpResponse × Nat :=
  let r0 := net m (primaryHeaders auth)
  match auth with
  | .apiKey k =>
    if r0.status = 401 ∧ k ≠ "" then
      let p := tryAltHeaders net m (altHeaders k) r0
      (p.1, 1 + p.2)
    else (r0, 1)
  | _ => (r0, 1)

/-- Validation failures of the clean-button handler, in source order. -/
inductive CleanupValidationError where
  | confirmationMismatch
  | missingCredential
  | emptySelection
deriving DecidableEq

/-- The literal confirmation phrase required by the clean-button handler. -/
def confirmLiteral : String := "CONFIRM_WORKSPACE_DELETION"

/-- Credential checks of the clean-button handler (the elif chain that runs
after the confirmation check): each auth mode requires its own fields to be
non-empty. -/
def credMissing : AuthContext → Bool
  | .jwt t => decide (t = "")
  | .apiKey k => decide (k = "")
  | .basic u p => decide (u = "") || decide (p = "")
  | .noAuth => false

/-- JSON payload posted to the cleanup endpoint on success. -/
structure CleanupRequestPayload where
  workspaces : List (List Char)
  directories : List (List Char)
  slugPatterns : List (List Char)
  confirmPhrase : String
deriving DecidableEq

/-- Clean-button handler: validation in source order, then the payload that
is posted to the cleanup endpoint. -/
def buildCleanupRequest (auth : AuthContext) (wsIn dirIn patIn : List Char)
    (confirmation : String) : Except CleanupValidationError CleanupRequestPayload :=
  if confirmation ≠ confirmLiteral then .error .confirmationMismatch
  else if credMissing auth then .error .missingCredential
  else
    let ws := parseField wsIn
    let ds := parseField dirIn
    let ps := parseField patIn
    if ws.isEmpty && ds.isEmpty && ps.isEmpty then .error .emptySelection
    else .ok ⟨ws, ds, ps, confirmation⟩

/-- Number of dispatch calls the clean-button handler makes: one on success,
none when validation fails. -/
def cleanupDispatchCount (auth : AuthContext) (wsIn dirIn patIn : List Char)
    (confirmation : String) : Nat :=
  match buildCleanupRequest auth wsIn dirIn patIn confirmation with
  | .error _ => 0
  | .ok _ => 1

/-- Check-log handler of the cleanup tool: the logFile value sent as query
parameter is `response_data["logFile"].split("/")[-1]`. -/
def checkLogQueryParam (logFile : List Char) : List Char :=
  lastD [] (pySplit '/' logFile)

/-- Direct log viewer of the import monitor: the stored path is sent
verbatim as the logFile query parameter. -/
def directLogQueryParam (p : String) : String := p

/-- Recovery payload posted to the recover endpoint. -/
structure RecoveryRequestPayload where
  orgNameFilter : Option String
  dryRun : Bool
deriving DecidableEq

/-- Recovery payload builder: an empty organization filter is sent as null,
never as the empty string. -/
def buildRecoveryRequest (orgFilter : String) (dryRun : Bool) : RecoveryRequestPayload :=
  { orgNameFilter := if orgFilter = "" then none else some orgFilter
    dryRun := dryRun }

/-- Default of the recovery dry-run checkbox (value=True in the source). -/
def recoveryDryRunDefault : Bool := true

/-- One detail entry of a recovery response. -/
structure RecoveryDetailItem where
  slug : String
  found : Bool
  fixed : Bool
  directory : Option String
  error : Option String

/-- One rendered row of the recovery results table. -/
structure RenderedRecoveryRow where
  workspace : String
  foundCell : String
  fixedCell : String
  directoryCell : String
  errorCell : String
deriving DecidableEq

/-- Python `value or default` for an optional string: None and the empty
string both fall back to the default. -/
def pyOrElse (v : Option String) (dflt : String) : String :=
  match v with
  | none => dflt
  | some s => if s = "" then dflt else s

/-- One row of the recovery results table, as built by the source. -/
def renderRecoveryRow (dryRun : Bool) (item : RecoveryDetailItem) : RenderedRecoveryRow :=
  { workspace := item.slug
    foundCell := if item.found then "✅" else "❌"
    fixedCell := if item.fixed then "✅" else if !dryRun then "❌" else "⏩ (dry run)"
    directoryCell := pyOrElse item.directory "Not found"
    errorCell := pyOrElse item.error "" }

/-- Progress fraction shown by the job monitor:
`(completed + failed + skipped) / total if total > 0 else 0`. -/
def jobProgress (total completed failed skipped : Nat) : ℚ :=
  if 0 < total then ((completed : ℚ) + failed + skipped) / total else 0

/-- Network oracle answering 401 to every request, used to exercise the
exhausted-fallback path of make_request. -/
def allUnauthorizedNet : Method → List (String × String) → HttpResponse :=
  fun _ _ => ⟨401, "unauthorized"⟩

/-- Network oracle answering 401 with body "alt3" to the third alternate
header shape for key "k" and 401 with body "primary" to everything else;
it distinguishes the primary response from the final alternate's. -/
def lastAltTaggedNet : Method → List (String × String) → HttpResponse :=
  fun _ h => if h = altHeader3 "k" then ⟨401, "alt3"⟩ else ⟨401, "primary"⟩

/-- Network oracle accepting only the second alternate header shape for key
"k"; everything else is answered 401. -/
def secondAltOkNet : Method → List (String × String) → HttpResponse :=
  fun _ h => if h = altHeader2 "k" then ⟨200, "ok"⟩ else ⟨401, "no"⟩

/-- `lastD` on a cons with a non-empty tail skips the head. -/
theorem lastD_cons_of_ne_nil {α : Type} (d a : α) {t : List α} (h : t ≠ []) :
    lastD d (a :: t) = lastD d t := by
  cases t with
  | nil => exact absurd rfl h
  | cons b t2 => rfl

/-- `lastD` of a non-empty list is a member of it. -/
theorem lastD_mem {α : Type} (d : α) : ∀ (l : List α), l ≠ [] → lastD d l ∈ l := by
  intro l
  induction l with
  | nil => intro h; exact absurd rfl h
  | cons a t ih =>
    intro _
    cases t with
    | nil => simp [lastD]
    | cons b t2 =>
      rw [lastD_cons_of_ne_nil d a (by simp)]
      exact List.mem_cons_of_mem a (ih (by simp))

/-- Dropping the last element and re-appending `lastD` restores any
non-empty list. -/
theorem dropLast_append_lastD {α : Type} (d : α) :
    ∀ (l : List α), l ≠ [] → l.dropLast ++ [lastD d l] = l := by
  intro l
  induction l with
  | nil => intro h; exact absurd rfl h
  | cons a t ih =>
    intro _
    cases t with
    | nil => simp [lastD]
    | cons b t2 =>
      rw [lastD_cons_of_ne_nil d a (by simp)]
      have := ih (by simp)
      simp only [List.dropLast_cons₂, List.cons_append, this]

/-- No element of a segment produced by `splitOnP` satisfies the splitting
predicate. -/
theorem splitOnP_sep_free {α : Type} (p : α → Bool) :
    ∀ (s : List α) (seg : List α), seg ∈ s.splitOnP p → ∀ x ∈ seg, p x = false := by
  intro s
  induction s with
  | nil =>
    intro seg hseg x hx
    simp only [List.splitOnP_nil, List.mem_singleton] at hseg
    subst hseg
    simp at hx
  | cons c cs ih =>
    intro seg hseg x hx
    rw [List.splitOnP_cons] at hseg
    by_cases hc : p c
    · rw [if_pos hc] at hseg
      rcases List.mem_cons.mp hseg with h | h
      · subst h; simp at hx
      · exact ih seg h x hx
    · rw [if_neg hc] at hseg
      obtain ⟨h1, t1, hsplit⟩ : ∃ h1 t1, cs.splitOnP p = h1 :: t1 := by
        rcases hcs : cs.splitOnP p with _ | ⟨h1, t1⟩
        · exact absurd hcs (List.splitOnP_ne_nil _ _)
        · exact ⟨h1, t1, rfl⟩
      rw [hsplit] at hseg
      simp only [List.modifyHead] at hseg
      rcases List.mem_cons.mp hseg with h | h
      · subst h
        rcases List.mem_cons.mp hx with h' | h'
        · subst h'
          exact Bool.not_eq_true _ ▸ (by simpa using hc)
        · exact ih h1 (hsplit ▸ List.mem_cons_self h1 t1) x h'
      · exact ih seg (hsplit ▸ List.mem_cons_of_mem h1 h) x hx

/-- Behaviour of `splitOnP` on a list extended by one element. -/
theorem splitOnP_concat {α : Type} (p : α → Bool) (c : α) :
    ∀ (xs : List α),
      (xs ++ [c]).splitOnP p =
        if p c then xs.splitOnP p ++ [[]]
        else (xs.splitOnP p).dropLast ++ [lastD [] (xs.splitOnP p) ++ [c]] := by
  intro xs
  induction xs with
  | nil =>
    by_cases hc : p c <;>
      simp [List.splitOnP_cons, List.splitOnP_nil, hc, lastD]
  | cons a xs ih =>
    obtain ⟨h1, t1, hsplit⟩ : ∃ h1 t1, xs.splitOnP p = h1 :: t1 := by
      rcases hcs : xs.splitOnP p with _ | ⟨h1, t1⟩
      · exact absurd hcs (List.splitOnP_ne_nil _ _)
      · exact ⟨h1, t1, rfl⟩
    by_cases ha : p a
    · by_cases hc : p c
      · simp only [List.cons_append, List.splitOnP_cons, if_pos ha, ih, if_pos hc]
      · simp only [List.cons_append, List.splitOnP_cons, if_pos ha, ih, if_neg hc, hsplit]
        cases t1 with
        | nil => simp [lastD]
        | cons u v =>
          rw [lastD_cons_of_ne_nil [] [] (by simp), lastD_cons_of_ne_nil [] h1 (by simp)]
          simp
    · by_cases hc : p c
      · simp only [List.cons_append, List.splitOnP_cons, if_neg ha, ih, if_pos hc, hsplit]
        simp [List.modifyHead]
      · simp only [List.cons_append, List.splitOnP_cons, if_neg ha, ih, if_neg hc, hsplit]
        cases t1 with
        | nil =>
          simp [lastD, List.modifyHead]
        | cons u v =>
          rw [lastD_cons_of_ne_nil [] h1 (by simp)]
          simp only [List.dropLast_cons₂, List.modifyHead, List.cons_append]
          rw [lastD_cons_of_ne_nil [] (a :: h1) (by simp)]

/-- Stripping a leading whitespace character first changes nothing. -/
theorem pyStrip_cons_ws {c : Char} (hc : pyWhitespaceChar c = true) (l : List Char) :
    pyStrip (c :: l) = pyStrip l := by
  simp [pyStrip, stripLeft, List.dropWhile_cons, hc]

/-- `stripRight` removes a final whitespace character. -/
theorem stripRight_concat_ws {c : Char} (hc : pyWhitespaceChar c = true) (l : List Char) :
    stripRight (l ++ [c]) = stripRight l := by
  simp [stripRight, List.dropWhile_cons, hc]

/-- Behaviour of `stripLeft` on a list extended by a whitespace character. -/
theorem stripLeft_concat_ws {c : Char} (hc : pyWhitespaceChar c = true) :
    ∀ l : List Char,
      stripLeft (l ++ [c]) = if (stripLeft l).isEmpty then [] else stripLeft l ++ [c] := by
  intro l
  induction l with
  | nil => simp [stripLeft, List.dropWhile_cons, hc]
  | cons a l ih =>
    by_cases haw : pyWhitespaceChar a
    · simpa [stripLeft, List.dropWhile_cons, haw] using ih
    · simp [stripLeft, List.dropWhile_cons, haw]

/-- Stripping a trailing whitespace character first changes nothing. -/
theorem pyStrip_concat_ws {c : Char} (hc : pyWhitespaceChar c = true) (l : List Char) :
    pyStrip (l ++ [c]) = pyStrip l := by
  unfold pyStrip
  rw [show stripLeft (l ++ [c]) = _ from stripLeft_concat_ws hc l]
  by_cases he : (stripLeft l).isEmpty
  · rw [if_pos he]
    rw [List.isEmpty_iff.mp he]
  · rw [if_neg he]
    exact stripRight_concat_ws hc (stripLeft l)

/-- `cleanLines` distributes over list append. -/
theorem cleanLines_append (a b : List (List Char)) :
    cleanLines (a ++ b) = cleanLines a ++ cleanLines b := by
  simp [cleanLines]

/-- An empty line contributes nothing to `cleanLines`. -/
theorem cleanLines_nil_cons (ls : List (List Char)) :
    cleanLines ([] :: ls) = cleanLines ls := by
  simp [cleanLines, pyStrip, stripLeft, stripRight]

/-- Lines with the same stripped value contribute the same way. -/
theorem cleanLines_cons_congr {l1 l2 : List Char} (h : pyStrip l1 = pyStrip l2)
    (ls : List (List Char)) :
    cleanLines (l1 :: ls) = cleanLines (l2 :: ls) := by
  simp [cleanLines, h]

/-- Removing leading whitespace from the whole field does not change the
cleaned line list. -/
theorem cleanLines_split_stripLeft (sep : Char) :
    ∀ s : List Char,
      cleanLines ((stripLeft s).splitOnP (· == sep)) = cleanLines (s.splitOnP (· == sep)) := by
  intro s
  induction s with
  | nil => rfl
  | cons c cs ih =>
    by_cases hw : pyWhitespaceChar c
    · have hdrop : stripLeft (c :: cs) = stripLeft cs := by
        simp [stripLeft, List.dropWhile_cons, hw]
      rw [hdrop, ih]
      rw [List.splitOnP_cons]
      by_cases hsep : (c == sep) = true
      · rw [if_pos hsep, cleanLines_nil_cons]
      · rw [if_neg hsep]
        obtain ⟨h1, t1, hsplit⟩ : ∃ h1 t1, cs.splitOnP (· == sep) = h1 :: t1 := by
          rcases hcs : cs.splitOnP (· == sep) with _ | ⟨h1, t1⟩
          · exact absurd hcs (List.splitOnP_ne_nil _ _)
          · exact ⟨h1, t1, rfl⟩
        rw [hsplit]
        simp only [List.modifyHead]
        exact (cleanLines_cons_congr (pyStrip_cons_ws hw h1) t1).symm
    · have hdrop : stripLeft (c :: cs) = c :: cs := by
        simp [stripLeft, List.dropWhile_cons, hw]
      rw [hdrop]

/-- Removing trailing whitespace from the whole field does not change the
cleaned line list. -/
theorem cleanLines_split_stripRight (sep : Char) :
    ∀ s : List Char,
      cleanLines ((stripRight s).splitOnP (· == sep)) = cleanLines (s.splitOnP (· == sep)) := by
  intro s
  induction s using List.reverseRecOn with
  | nil => rfl
  | append_singleton xs c ih =>
    by_cases hw : pyWhitespaceChar c
    · rw [stripRight_concat_ws hw, ih]
      rw [splitOnP_concat]
      by_cases hsep : (c == sep) = true
      · rw [if_pos hsep, cleanLines_append, cleanLines_nil_cons]
        simp [cleanLines]
      · rw [if_neg hsep, cleanLines_append]
        have hlast : cleanLines [lastD [] (xs.splitOnP (· == sep)) ++ [c]] =
            cleanLines [lastD [] (xs.splitOnP (· == sep))] :=
          cleanLines_cons_congr (pyStrip_concat_ws hw _) []
        rw [hlast, ← cleanLines_append,
          dropLast_append_lastD [] _ (List.splitOnP_ne_nil _ _)]
    · have hkeep : stripRight (xs ++ [c]) = xs ++ [c] := by
        simp [stripRight, List.dropWhile_cons, hw]
      rw [hkeep]

/-- The handler's parse (which strips the whole field first) agrees with the
spec's description (split, trim each line, drop empties) on every input. -/
theorem parseField_eq_specParseField : ∀ s : List Char, parseField s = specParseField s := by
  intro s
  show cleanLines (pySplit '\n' (stripRight (stripLeft s))) = cleanLines (pySplit '\n' s)
  show cleanLines ((stripRight (stripLeft s)).splitOn '\n') = cleanLines (s.splitOn '\n')
  simp only [List.splitOn]
  rw [cleanLines_split_stripRight, cleanLines_split_stripLeft]

/-- A list is a Boolean prefix of itself followed by anything. -/
theorem isPrefixOf_append_self {α : Type} [BEq α] [LawfulBEq α] (a b : List α) :
    a.isPrefixOf (a ++ b) = true := by
  induction a with
  | nil => simp [List.isPrefixOf]
  | cons c a ih => simp [List.isPrefixOf, ih]

/-- The fallback loop issues at most one physical request per alternate
header shape. -/
theorem tryAltHeaders_count_le (net : Method → List (String × String) → HttpResponse)
    (m : Method) :
    ∀ (hs : List (List (String × String))) (r0 : HttpResponse),
      (tryAltHeaders net m hs r0).2 ≤ hs.length := by
  intro hs
  induction hs with
  | nil => intro r0; simp [tryAltHeaders]
  | cons h t ih =>
    intro r0
    simp only [tryAltHeaders, List.length_cons]
    by_cases hr : (net m h).status ≠ 401
    · rw [if_pos hr]
      omega
    · rw [if_neg hr]
      have := ih r0
      simp only []
      omega

/-- Claim C1: for every cleanup submission, validation runs in the fixed
order confirmation phrase (exact, case-sensitive, untrimmed equality with
CONFIRM_WORKSPACE_DELETION), then non-empty credentials for the active auth
mode (JWT needs a token, API key needs a key, basic auth needs both user
and password), then non-empty identifier selection after trimming blank
lines; the first failing check determines the reported error and a failed
submission makes zero network calls. -/
theorem c1_cleanup_validation_order (auth : AuthContext)
    (wsIn dirIn patIn : List Char) (confirmation : String) :
    (confirmation ≠ confirmLiteral →
      buildCleanupRequest auth wsIn dirIn patIn confirmation =
        .error .confirmationMismatch) ∧
    (confirmation = confirmLiteral → credMissing auth = true →
      buildCleanupRequest auth wsIn dirIn patIn confirmation =
        .error .missingCredential) ∧
    (confirmation = confirmLiteral → credMissing auth = false →
      parseField wsIn = [] → parseField dirIn = [] → parseField patIn = [] →
      buildCleanupRequest auth wsIn dirIn patIn confirmation =
        .error .emptySelection) ∧
    ((∀ t, credMissing (.jwt t) = decide (t = "")) ∧
     (∀ k, credMissing (.apiKey k) = decide (k = "")) ∧
     (∀ u p, credMissing (.basic u p) = (decide (u = "") || decide (p = ""))) ∧
     credMissing .noAuth = false) ∧
    (∀ e, buildCleanupRequest auth wsIn dirIn patIn confirmation = .error e →
      cleanupDispatchCount auth wsIn dirIn patIn confirmation = 0) := by
  refine ⟨?_, ?_, ?_, ⟨fun _ => rfl, fun _ => rfl, fun _ _ => rfl, rfl⟩, ?_⟩
  · intro h
    rw [buildCleanupRequest, if_pos h]
  · intro hc hcred
    rw [buildCleanupRequest, if_neg (by simp [hc]), if_pos hcred]
  · intro hc hcred hws hds hps
    rw [buildCleanupRequest, if_neg (by simp [hc])]
    simp only [hcred, Bool.false_eq_true, if_false]
    simp [hws, hds, hps]
  · intro e he
    rw [cleanupDispatchCount, he]

/-- Claim C1 witness: a wrong confirmation phrase is reported as a
confirmation mismatch and causes no dispatch. -/
theorem c1_witness :
    "WRONG" ≠ confirmLiteral ∧
    buildCleanupRequest .noAuth [] [] [] "WRONG" = .error .confirmationMismatch ∧
    cleanupDispatchCount .noAuth [] [] [] "WRONG" = 0 := by
  refine ⟨by decide, ?_, ?_⟩
  · exact (c1_cleanup_validation_order .noAuth [] [] [] "WRONG").1 (by decide)
  · exact (c1_cleanup_validation_order .noAuth [] [] [] "WRONG").2.2.2.2
      .confirmationMismatch
      ((c1_cleanup_validation_order .noAuth [] [] [] "WRONG").1 (by decide))

/-- Claim C4 counterexample: with all three identifier lists empty and a
wrong confirmation phrase the handler reports the confirmation mismatch,
not the empty selection. -/
theorem c4_counterexample :
    buildCleanupRequest .noAuth [] [] [] "wrong-phrase" ≠ .error .emptySelection ∧
    buildCleanupRequest .noAuth [] [] [] "wrong-phrase" =
      .error .confirmationMismatch := by
  have h : buildCleanupRequest .noAuth [] [] [] "wrong-phrase" =
      .error .confirmationMismatch := by
    rw [buildCleanupRequest, if_pos (by decide)]
  refine ⟨?_, h⟩
  rw [h]
  intro hx
  injection hx with hx2
  exact CleanupValidationError.noConfusion hx2

/-- Claim C4 (amended): when the confirmation phrase is correct and the
active auth mode's credentials are present, a submission whose three
identifier lists are all empty after trimming blank lines results in the
empty-selection error. -/
theorem c4_empty_selection (auth : AuthContext) (wsIn dirIn patIn : List Char)
    (confirmation : String)
    (hc : confirmation = confirmLiteral) (hcred : credMissing auth = false)
    (hws : parseField wsIn = []) (hds : parseField dirIn = [])
    (hps : parseField patIn = []) :
    buildCleanupRequest auth wsIn dirIn patIn confirmation =
      .error .emptySelection := by
  rw [buildCleanupRequest, if_neg (by simp [hc])]
  simp only [hcred, Bool.false_eq_true, if_false]
  simp [hws, hds, hps]

/-- Claim C4 witness: whitespace-only identifier fields with the correct
phrase and no auth yield the empty-selection error. -/
theorem c4_witness :
    (confirmLiteral = confirmLiteral ∧ credMissing .noAuth = false ∧
      parseField " \n ".toList = []) ∧
    buildCleanupRequest .noAuth " \n ".toList [] [] confirmLiteral =
      .error .emptySelection :=
  ⟨⟨rfl, rfl, by decide⟩,
    c4_empty_selection .noAuth " \n ".toList [] [] confirmLiteral rfl rfl
      (by decide) (by decide) (by decide)⟩

/-- Behaviour of make_request under JWT auth: one physical request. -/
theorem makeRequest_jwt (net : Method → List (String × String) → HttpResponse)
    (m : Method) (t : String) :
    makeRequest net m (.jwt t) = (net m (primaryHeaders (.jwt t)), 1) := rfl

/-- Behaviour of make_request under basic auth: one physical request. -/
theorem makeRequest_basic (net : Method → List (String × String) → HttpResponse)
    (m : Method) (u p : String) :
    makeRequest net m (.basic u p) = (net m (primaryHeaders (.basic u p)), 1) := rfl

/-- Behaviour of make_request without auth: one physical request. -/
theorem makeRequest_noAuth (net : Method → List (String × String) → HttpResponse)
    (m : Method) :
    makeRequest net m .noAuth = (net m (primaryHeaders .noAuth), 1) := rfl

/-- Behaviour of make_request under API-key auth when the fallback
condition holds. -/
theorem makeRequest_apiKey_pos (net : Method → List (String × String) → HttpResponse)
    (m : Method) (k : String)
    (h : (net m (primaryHeaders (.apiKey k))).status = 401 ∧ k ≠ "") :
    makeRequest net m (.apiKey k) =
      ((tryAltHeaders net m (altHeaders k) (net m (primaryHeaders (.apiKey k)))).1,
       1 + (tryAltHeaders net m (altHeaders k) (net m (primaryHeaders (.apiKey k)))).2) := by
  rw [makeRequest]
  simp only [if_pos h]

/-- Behaviour of make_request under API-key auth when the fallback
condition fails. -/
theorem makeRequest_apiKey_neg (net : Method → List (String × String) → HttpResponse)
    (m : Method) (k : String)
    (h : ¬((net m (primaryHeaders (.apiKey k))).status = 401 ∧ k ≠ "")) :
    makeRequest net m (.apiKey k) = (net m (primaryHeaders (.apiKey k)), 1) := by
  rw [makeRequest]
  simp only [if_neg h]

/-- Unfolding of the fallback loop on the three alternate header shapes. -/
theorem tryAltHeaders_three (net : Method → List (String × String) → HttpResponse)
    (m : Method) (k : String) (r0 : HttpResponse) :
    tryAltHeaders net m (altHeaders k) r0 =
      (if (net m (altHeader1 k)).status ≠ 401 then (net m (altHeader1 k), 1)
       else if (net m (altHeader2 k)).status ≠ 401 then (net m (altHeader2 k), 2)
       else if (net m (altHeader3 k)).status ≠ 401 then (net m (altHeader3 k), 3)
       else (r0, 3)) := by
  simp only [altHeaders, tryAltHeaders]
  by_cases h1 : (net m (altHeader1 k)).status ≠ 401
  · rw [if_pos h1, if_pos h1]
  · rw [if_neg h1, if_neg h1]
    by_cases h2 : (net m (altHeader2 k)).status ≠ 401
    · rw [if_pos h2, if_pos h2]
    · rw [if_neg h2, if_neg h2]
      by_cases h3 : (net m (altHeader3 k)).status ≠ 401
      · rw [if_pos h3, if_pos h3]
      · rw [if_neg h3, if_neg h3]

/-- Claim C2 counterexample: when the primary attempt and all three
alternates answer 401, make_request returns the primary response, not the
final alternate's response (their bodies differ under lastAltTaggedNet). -/
theorem c2_counterexample :
    (makeRequest lastAltTaggedNet .post (.apiKey "k")).1 ≠
      lastAltTaggedNet .post (altHeader3 "k") ∧
    (makeRequest lastAltTaggedNet .post (.apiKey "k")).1 =
      lastAltTaggedNet .post (primaryHeaders (.apiKey "k")) := by
  constructor
  · decide
  · decide

/-- Claim C2 (amended): under an API-key auth context with a non-empty key
whose primary attempt returns 401, make_request re-issues the call with the
three alternate header shapes in the fixed order (raw key as Authorization,
key as x-api-key, key as X-API-KEY), stops at the first response whose
status is not 401, and when all four attempts return 401 it returns the
primary response. -/
theorem c2_apikey_fallback_order
    (net : Method → List (String × String) → HttpResponse) (m : Method)
    (k : String) (hk : k ≠ "")
    (h401 : (net m (primaryHeaders (.apiKey k))).status = 401) :
    makeRequest net m (.apiKey k) =
      (if (net m (altHeader1 k)).status ≠ 401 then (net m (altHeader1 k), 2)
       else if (net m (altHeader2 k)).status ≠ 401 then (net m (altHeader2 k), 3)
       else if (net m (altHeader3 k)).status ≠ 401 then (net m (altHeader3 k), 4)
       else (net m (primaryHeaders (.apiKey k)), 4)) := by
  rw [makeRequest_apiKey_pos net m k ⟨h401, hk⟩, tryAltHeaders_three]
  by_cases h1 : (net m (altHeader1 k)).status ≠ 401
  · rw [if_pos h1, if_pos h1]; rfl
  · rw [if_neg h1, if_neg h1]
    by_cases h2 : (net m (altHeader2 k)).status ≠ 401
    · rw [if_pos h2, if_pos h2]; rfl
    · rw [if_neg h2, if_neg h2]
      by_cases h3 : (net m (altHeader3 k)).status ≠ 401
      · rw [if_pos h3, if_pos h3]; rfl
      · rw [if_neg h3, if_neg h3]; rfl

/-- Claim C2 witness: with a 401 primary and a 200 on the second alternate,
the dispatcher returns the second alternate's response after three physical
requests. -/
theorem c2_witness :
    ("k" ≠ "" ∧ (secondAltOkNet .post (primaryHeaders (.apiKey "k"))).status = 401) ∧
    makeRequest secondAltOkNet .post (.apiKey "k") =
      (if (secondAltOkNet .post (altHeader1 "k")).status ≠ 401
       then (secondAltOkNet .post (altHeader1 "k"), 2)
       else if (secondAltOkNet .post (altHeader2 "k")).status ≠ 401
       then (secondAltOkNet .post (altHeader2 "k"), 3)
       else if (secondAltOkNet .post (altHeader3 "k")).status ≠ 401
       then (secondAltOkNet .post (altHeader3 "k"), 4)
       else (secondAltOkNet .post (primaryHeaders (.apiKey "k")), 4)) :=
  ⟨⟨by decide, by decide⟩,
    c2_apikey_fallback_order secondAltOkNet .post "k" (by decide) (by decide)⟩

/-- Claim C3 counterexample: a GET dispatch under an API-key context whose
primary attempt returns 401 issues four physical requests, not one. -/
theorem c3_counterexample :
    (makeRequest allUnauthorizedNet .get (.apiKey "k")).2 = 4 ∧
    (makeRequest allUnauthorizedNet .get (.apiKey "k")).2 ≠ 1 := by
  constructor
  · decide
  · decide

/-- Claim C3 (amended): every logical dispatch issues between 1 and 4
physical requests; more than one request happens only when the auth context
is an API key with a non-empty key and the primary response is 401
(regardless of method, so GET calls fall back too); calls under JWT, basic
auth, or no auth always issue exactly one physical request. -/
theorem c3_request_count
    (net : Method → List (String × String) → HttpResponse) (m : Method)
    (auth : AuthContext) :
    1 ≤ (makeRequest net m auth).2 ∧
    (makeRequest net m auth).2 ≤ 4 ∧
    ((makeRequest net m auth).2 ≠ 1 →
      ∃ k, auth = .apiKey k ∧ k ≠ "" ∧
        (net m (primaryHeaders auth)).status = 401) ∧
    (∀ t, auth = .jwt t → (makeRequest net m auth).2 = 1) ∧
    (∀ u p, auth = .basic u p → (makeRequest net m auth).2 = 1) ∧
    (auth = .noAuth → (makeRequest net m auth).2 = 1) := by
  cases auth with
  | jwt t =>
    rw [makeRequest_jwt]
    refine ⟨le_refl 1, by omega, ?_, ?_, ?_, ?_⟩
    · intro h; exact absurd rfl h
    · intro _ _; rfl
    · intro u p h; exact AuthContext.noConfusion h
    · intro h; exact AuthContext.noConfusion h
  | basic u p =>
    rw [makeRequest_basic]
    refine ⟨le_refl 1, by omega, ?_, ?_, ?_, ?_⟩
    · intro h; exact absurd rfl h
    · intro t h; exact AuthContext.noConfusion h
    · intro _ _ _; rfl
    · intro h; exact AuthContext.noConfusion h
  | noAuth =>
    rw [makeRequest_noAuth]
    refine ⟨le_refl 1, by omega, ?_, ?_, ?_, ?_⟩
    · intro h; exact absurd rfl h
    · intro t h; exact AuthContext.noConfusion h
    · intro u p h; exact AuthContext.noConfusion h
    · intro _; rfl
  | apiKey k =>
    by_cases hcond : (net m (primaryHeaders (.apiKey k))).status = 401 ∧ k ≠ ""
    · rw [makeRequest_apiKey_pos net m k hcond]
      have hle : (tryAltHeaders net m (altHeaders k)
          (net m (primaryHeaders (.apiKey k)))).2 ≤ 3 := by
        have := tryAltHeaders_count_le net m (altHeaders k)
          (net m (primaryHeaders (.apiKey k)))
        simpa [altHeaders] using this
      refine ⟨by simp, ?_, ?_, ?_, ?_, ?_⟩
      · show 1 + (tryAltHeaders net m (altHeaders k)
          (net m (primaryHeaders (.apiKey k)))).2 ≤ 4
        omega
      · intro _; exact ⟨k, rfl, hcond.2, hcond.1⟩
      · intro t h; exact AuthContext.noConfusion h
      · intro u p h; exact AuthContext.noConfusion h
      · intro h; exact AuthContext.noConfusion h
    · rw [makeRequest_apiKey_neg net m k hcond]
      refine ⟨le_refl 1, by omega, ?_, ?_, ?_, ?_⟩
      · intro h; exact absurd rfl h
      · intro t h; exact AuthContext.noConfusion h
      · intro u p h; exact AuthContext.noConfusion h
      · intro h; exact AuthContext.noConfusion h

/-- Claim C3 witness: a GET dispatch that falls back certifies the
only-under-401-and-API-key direction at a concrete input. -/
theorem c3_witness :
    (makeRequest allUnauthorizedNet .get (.apiKey "k")).2 ≠ 1 ∧
    (∃ kk, AuthContext.apiKey "k" = .apiKey kk ∧ kk ≠ "" ∧
      (allUnauthorizedNet .get (primaryHeaders (.apiKey "k"))).status = 401) :=
  ⟨by decide,
    (c3_request_count allUnauthorizedNet .get (.apiKey "k")).2.2.1 (by decide)⟩

/-- Claim C5: the parsed list of every multi-line identifier field equals
the input split on newlines with each line trimmed and empty lines
discarded, preserving order and keeping duplicates; in particular
"a\n\nb" parses to exactly ["a", "b"]. -/
theorem c5_parse_fields :
    (∀ s : List Char, parseField s = specParseField s) ∧
    parseField "a\n\nb".toList = ["a".toList, "b".toList] ∧
    parseField "a\na\nb".toList = ["a".toList, "a".toList, "b".toList] := by
  refine ⟨parseField_eq_specParseField, by decide, by decide⟩

/-- Claim C6 counterexample: the direct log viewer of the import monitor
sends the stored identifier verbatim, so a full path is sent as is rather
than reduced to its filename component. -/
theorem c6_counterexample :
    directLogQueryParam "/var/log/x/import-123.log" ≠
      (checkLogQueryParam "/var/log/x/import-123.log".toList).asString := by
  decide

/-- Claim C6 (amended): the cleanup tool's check-log fetch sends only the
filename component (the last '/'-separated segment, which never contains a
slash) of the logFile identifier — "/var/log/x/import-123.log" is sent as
"import-123.log" — while the import monitor's direct log viewer sends the
stored identifier verbatim. -/
theorem c6_checklog_basename :
    (checkLogQueryParam "/var/log/x/import-123.log".toList).asString =
      "import-123.log" ∧
    (∀ s : List Char, '/' ∉ checkLogQueryParam s) ∧
    directLogQueryParam "/var/log/x/import-123.log" = "/var/log/x/import-123.log" := by
  refine ⟨by decide, ?_, rfl⟩
  intro s hmem
  have hnil : s.splitOnP (· == '/') ≠ [] := List.splitOnP_ne_nil _ _
  have hseg : lastD [] (s.splitOnP (· == '/')) ∈ s.splitOnP (· == '/') :=
    lastD_mem [] _ hnil
  have hfree := splitOnP_sep_free (· == '/') s _ hseg '/'
    (by simpa [checkLogQueryParam, pySplit, List.splitOn] using hmem)
  simp at hfree

/-- Claim C7 counterexample: a stored JWT token with leading whitespace is
stripped before the Authorization header is built, so the header differs
from the spec's verbatim rule applied to the stored token. -/
theorem c7_counterexample :
    jwtAuthValue " abc".toList ≠ specJwtAuthValue " abc".toList := by
  decide

/-- Claim C7 (amended): for every non-empty JWT token input, the
Authorization value is the spec rule applied to the whitespace-stripped
token — the stripped token verbatim when it starts with "Bearer ",
otherwise "Bearer " prepended to the stripped token — and the resulting
value always starts with "Bearer ". -/
theorem c7_jwt_header_of_stripped (token : List Char) (h : token.isEmpty = false) :
    jwtAuthValue token = specJwtAuthValue (pyStrip token) ∧
    ∃ v, jwtAuthValue token = some v ∧ bearerSpace.isPrefixOf v = true := by
  rw [jwtAuthValue, h]
  simp only [Bool.false_eq_true, if_false]
  by_cases hb : bearerSpace.isPrefixOf (pyStrip token) = true
  · rw [if_pos hb]
    exact ⟨by rw [specJwtAuthValue, if_pos hb], ⟨pyStrip token, rfl, hb⟩⟩
  · rw [if_neg hb]
    refine ⟨by rw [specJwtAuthValue, if_neg hb], ?_⟩
    exact ⟨bearerSpace ++ pyStrip token, rfl, isPrefixOf_append_self _ _⟩

/-- Claim C7 witness: the token "abc" is non-empty and gets the header
value "Bearer abc". -/
theorem c7_witness :
    ("abc".toList.isEmpty = false) ∧
    (jwtAuthValue "abc".toList = specJwtAuthValue (pyStrip "abc".toList) ∧
     ∃ v, jwtAuthValue "abc".toList = some v ∧ bearerSpace.isPrefixOf v = true) :=
  ⟨by decide, c7_jwt_header_of_stripped "abc".toList (by decide)⟩

/-- Claim C8 counterexample: a detail row with found=true and fixed=true in
a dry run renders the fixed marker, not the skipped-due-to-dry-run marker. -/
theorem c8_counterexample :
    (renderRecoveryRow true ⟨"w", true, true, none, none⟩).fixedCell = "✅" ∧
    (renderRecoveryRow true ⟨"w", true, true, none, none⟩).fixedCell ≠
      "⏩ (dry run)" := by
  constructor
  · rfl
  · decide

/-- Claim C8 (amended): during a dry run every detail row whose fixed field
is false renders the skipped-due-to-dry-run marker (even with found=true),
a row whose fixed field is true renders the fixed marker even during a dry
run, and the column is a tri-state over the fixed, not-fixed and skipped
markers. -/
theorem c8_dry_run_fixed_cell (dryRun : Bool) (item : RecoveryDetailItem) :
    (dryRun = true → item.fixed = false →
      (renderRecoveryRow dryRun item).fixedCell = "⏩ (dry run)") ∧
    (item.fixed = true → (renderRecoveryRow dryRun item).fixedCell = "✅") ∧
    (renderRecoveryRow dryRun item).fixedCell ∈ ["✅", "❌", "⏩ (dry run)"] := by
  refine ⟨?_, ?_, ?_⟩
  · intro hd hf
    simp [renderRecoveryRow, hd, hf]
  · intro hf
    simp [renderRecoveryRow, hf]
  · rcases hf : item.fixed with _ | _ <;> rcases hd : dryRun with _ | _ <;>
      simp [renderRecoveryRow, hf, hd]

/-- Claim C8 witness: a found-but-unfixed row in a dry run renders the
skipped marker. -/
theorem c8_witness :
    (renderRecoveryRow true ⟨"w", true, false, none, none⟩).fixedCell =
      "⏩ (dry run)" :=
  (c8_dry_run_fixed_cell true ⟨"w", true, false, none, none⟩).1 rfl rfl

/-- Claim C9: an empty organization filter is normalized to the absent
value and never transmitted as the empty string, and the dry-run flag
defaults to true; in particular buildRecoveryRequest "" true produces
orgNameFilter = null with dryRun = true. -/
theorem c9_recovery_request_normalized :
    buildRecoveryRequest "" true = ⟨none, true⟩ ∧
    (∀ orgFilter dryRun,
      (buildRecoveryRequest orgFilter dryRun).orgNameFilter ≠ some "") ∧
    (∀ orgFilter dryRun, (buildRecoveryRequest orgFilter dryRun).dryRun = dryRun) ∧
    recoveryDryRunDefault = true := by
  refine ⟨rfl, ?_, fun _ _ => rfl, rfl⟩
  intro f d h
  by_cases hf : f = ""
  · rw [buildRecoveryRequest] at h
    simp [hf] at h
  · rw [buildRecoveryRequest] at h
    simp only [if_neg hf] at h
    exact hf (Option.some_inj.mp h)

/-- Claim C10: the job monitor's progress fraction equals
(completed + failed + skipped) / total when total > 0 and is exactly 0 when
total = 0, so the computation never divides by zero; it also stays within
[0, 1] under the job statistics invariant. -/
theorem c10_job_progress (total completed failed skipped : Nat) :
    (0 < total →
      jobProgress total completed failed skipped * (total : ℚ) =
        (completed : ℚ) + failed + skipped) ∧
    jobProgress 0 completed failed skipped = 0 ∧
    0 ≤ jobProgress total completed failed skipped ∧
    (completed + failed + skipped ≤ total →
      jobProgress total completed failed skipped ≤ 1) := by
  refine ⟨?_, ?_, ?_, ?_⟩
  · intro ht
    rw [jobProgress, if_pos ht]
    rw [div_mul_cancel₀]
    exact_mod_cast Nat.pos_iff_ne_zero.mp ht
  · rw [jobProgress, if_neg (lt_irrefl 0)]
  · rw [jobProgress]
    by_cases ht : 0 < total
    · rw [if_pos ht]
      positivity
    · rw [if_neg ht]
  · intro hle
    rw [jobProgress]
    by_cases ht : 0 < total
    · rw [if_pos ht]
      rw [div_le_one (by exact_mod_cast ht)]
      exact_mod_cast hle
    · rw [if_neg ht]
      norm_num

/-- Claim C10 witness: a job with 4 total and 2 + 1 + 1 processed shows a
progress of at most 1. -/
theorem c10_witness :
    ((2 : Nat) + 1 + 1 ≤ 4) ∧ jobProgress 4 2 1 1 ≤ 1 :=
  ⟨by norm_num, (c10_job_progress 4 2 1 1).2.2.2 (by norm_num)⟩
